import Mathlib

/-!
Shallow embedding of `src/parse_medical_records.py` (medical-record
extraction and normalization pipeline), together with theorems settling
the frozen claims about it.

Conventions used throughout:
* Python strings are modelled as `String` / `List Char`; functions that
  work character-by-character operate on `List Char`.
* Python `float` values are modelled by `PyFloat`: an exact rational for
  finite values plus infinities and NaN.  Decimal-literal parsing is
  exact, so no rounding questions arise (the program only parses and
  stores values, it never computes with them).  Two documented
  imprecisions: decimal literals large enough to overflow a binary64
  (≈1e309) are kept as finite rationals here, and non-ASCII digit
  characters accepted by Python's `float` are not modelled.
* A Python function that can raise an uncaught exception is modelled
  with an `Option` result, `none` standing for the raised exception.
* Regular expressions from the source are mirrored by hand-written
  deterministic matchers that reproduce the greedy / lazy / ordered
  alternation semantics of the original pattern on the relevant
  character classes.
-/

/-! ### Basic character and string utilities (Python semantics) -/

/-- Characters stripped by Python's `str.strip()` / matched by `\s`
(ASCII portion). -/
def isPySpace (c : Char) : Bool :=
  c = ' ' || c = '\t' || c = '\n' || c = '\r' || c = '\x0b' || c = '\x0c'

/-- Python `str.strip()` on a character list. -/
def pyStrip (cs : List Char) : List Char :=
  ((cs.dropWhile isPySpace).reverse.dropWhile isPySpace).reverse

/-- ASCII lower-casing, as Python `str.lower()` does on ASCII text. -/
def pyLowerC (c : Char) : Char :=
  if 'A' ≤ c && c ≤ 'Z' then Char.ofNat (c.toNat + 32) else c

/-- ASCII upper-casing, as Python `str.upper()` does on ASCII text. -/
def pyUpperC (c : Char) : Char :=
  if 'a' ≤ c && c ≤ 'z' then Char.ofNat (c.toNat - 32) else c

def pyLower (cs : List Char) : List Char := cs.map pyLowerC

/-- Does the needle occur at the very start of the haystack? -/
def leadsWith : List Char → List Char → Bool
  | [], _ => true
  | _ :: _, [] => false
  | a :: as, b :: bs => a == b && leadsWith as bs

/-- Python's `needle in haystack` substring test. -/
def hasSub (n : List Char) : List Char → Bool
  | [] => n.isEmpty
  | c :: t => leadsWith n (c :: t) || hasSub n t

/-- Case-insensitive variant of `leadsWith`; the needle is given
lower-case. -/
def leadsWithCI : List Char → List Char → Bool
  | [], _ => true
  | _ :: _, [] => false
  | a :: as, b :: bs => a == pyLowerC b && leadsWithCI as bs

/-- Match a literal at the front, returning the remainder. -/
def dropLit : List Char → List Char → Option (List Char)
  | [], cs => some cs
  | _ :: _, [] => none
  | l :: ls, c :: cs => if c = l then dropLit ls cs else none

/-- Match a literal case-insensitively (needle given lower-case),
returning the remainder. -/
def dropLitCI : List Char → List Char → Option (List Char)
  | [], cs => some cs
  | _ :: _, [] => none
  | l :: ls, c :: cs => if pyLowerC c = l then dropLitCI ls cs else none

/-- First `some` produced by `f` along the list. -/
def firstSome : List α → (α → Option β) → Option β
  | [], _ => none
  | a :: as, f => match f a with | some b => some b | none => firstSome as f

/-- Numeric value of an ASCII digit. -/
def digVal (c : Char) : Nat := c.toNat - 48

/-- Natural number denoted by a digit list. -/
def natOfDigits (ds : List Char) : Nat :=
  ds.foldl (fun a c => 10 * a + digVal c) 0

/-! ### Python `float()` model -/

/-- Result of Python's `float()` conversion. -/
inductive PyFloat where
  | finite : ℚ → PyFloat
  | inf : Bool → PyFloat
  | nan : PyFloat
deriving DecidableEq

/-- Digit run with Python numeric-literal underscores: an underscore must
sit between two digits.  Returns the digits (underscores removed) and
the unconsumed remainder. -/
def digitsUGo : List Char → List Char × List Char
  | [] => ([], [])
  | c :: t =>
    if c.isDigit then
      match digitsUGo t with
      | (ds, r) => (c :: ds, r)
    else if c = '_' then
      match t with
      | [] => ([], ['_'])
      | d :: t2 =>
        if d.isDigit then
          match digitsUGo t2 with
          | (ds, r) => (d :: ds, r)
        else ([], c :: t)
    else ([], c :: t)

/-- Digit run (with underscores) that must start with a digit. -/
def digitsU (cs : List Char) : Option (List Char × List Char) :=
  match cs with
  | c :: _ => if c.isDigit then some (digitsUGo cs) else none
  | [] => none

/-- Mantissa of a Python float literal: `digits [. digits?]` or
`. digits`.  Returns the digits' value and the number of fractional
digits (the value is `m / 10^s`).  Rational arithmetic is deferred to a
single `mkRat` so that everything kernel-reduces. -/
def pyMantissa (cs : List Char) : Option (Nat × Nat × List Char) :=
  match digitsU cs with
  | some (ip, r1) =>
    match r1 with
    | '.' :: r2 =>
      match digitsU r2 with
      | some (fp, r3) => some (natOfDigits (ip ++ fp), fp.length, r3)
      | none => some (natOfDigits ip, 0, r2)
    | _ => some (natOfDigits ip, 0, r1)
  | none =>
    match cs with
    | '.' :: r2 =>
      match digitsU r2 with
      | some (fp, r3) => some (natOfDigits fp, fp.length, r3)
      | none => none
    | _ => none

/-- Optional exponent part `e/E [sign] digits`: returns the exponent's
sign and magnitude (`(false, 0, cs)` when no exponent is present). -/
def pyExponent (cs : List Char) : Option (Bool × Nat × List Char) :=
  match cs with
  | e :: r1 =>
    if e = 'e' || e = 'E' then
      let signAndRest : Bool × List Char :=
        match r1 with
        | '+' :: r2 => (false, r2)
        | '-' :: r2 => (true, r2)
        | _ => (false, r1)
      match digitsU signAndRest.2 with
      | some (ds, r3) => some (signAndRest.1, natOfDigits ds, r3)
      | none => none
    else some (false, 0, cs)
  | [] => some (false, 0, cs)

/-- Exact rational `±(m * 10^up) / 10^down`. -/
def ratOfSci (neg : Bool) (m up down : Nat) : ℚ :=
  mkRat (if neg then -(Int.ofNat (m * 10 ^ up)) else Int.ofNat (m * 10 ^ up)) (10 ^ down)

/-- Python `float(s)`: `none` models a raised `ValueError`. -/
def pyFloat? (s : String) : Option PyFloat :=
  let cs := s.data.dropWhile isPySpace
  let signAndRest : Bool × List Char :=
    match cs with
    | '+' :: r => (false, r)
    | '-' :: r => (true, r)
    | _ => (false, cs)
  let neg := signAndRest.1
  let body := signAndRest.2
  let parsed : Option (PyFloat × List Char) :=
    match dropLitCI "infinity".data body with
    | some r => some (PyFloat.inf neg, r)
    | none =>
      match dropLitCI "inf".data body with
      | some r => some (PyFloat.inf neg, r)
      | none =>
        match dropLitCI "nan".data body with
        | some r => some (PyFloat.nan, r)
        | none =>
          match pyMantissa body with
          | some (m, s, r1) =>
            match pyExponent r1 with
            | some (esign, emag, r2) =>
              if esign then some (PyFloat.finite (ratOfSci neg m 0 (s + emag)), r2)
              else some (PyFloat.finite (ratOfSci neg m emag s), r2)
            | none => none
          | none => none
  match parsed with
  | some (f, rest) => if rest.dropWhile isPySpace = [] then some f else none
  | none => none

/-! ### `datetime.strptime` model for the seven formats of `parse_date`

CPython's `_strptime` compiles each directive to an ordered regex
alternation; the alternations used below are the ones CPython uses:
`%m` → `1[0-2]|0[1-9]|[1-9]`, `%d` → `3[01]|[12]\d|0[1-9]|[1-9]`,
`%Y` → exactly four digits, `%y` → exactly two digits (00-68 mapped to
20xx, 69-99 to 19xx), `%B`/`%b` → the English month names,
case-insensitively, and a whitespace run in the format → one or more
whitespace characters.  After the regex matches the whole string,
constructing the `datetime` additionally validates the day against the
month length (Gregorian leap rule) and requires year ≥ 1. -/

/-- Candidate parses of `%m` (regex `1[0-2]|0[1-9]|[1-9]`), in the
regex's alternation order. -/
def mCands : List Char → List (Nat × List Char)
  | a :: b :: r =>
    (if a = '1' && ('0' ≤ b && b ≤ '2') then [(10 + digVal b, r)] else []) ++
    (if a = '0' && ('1' ≤ b && b ≤ '9') then [(digVal b, r)] else []) ++
    (if '1' ≤ a && a ≤ '9' then [(digVal a, b :: r)] else [])
  | [a] => if '1' ≤ a && a ≤ '9' then [(digVal a, [])] else []
  | [] => []

/-- Candidate parses of `%d` (regex `3[01]|[12]\d|0[1-9]|[1-9]`), in the
regex's alternation order. -/
def dCands : List Char → List (Nat × List Char)
  | a :: b :: r =>
    (if a = '3' && ('0' ≤ b && b ≤ '1') then [(30 + digVal b, r)] else []) ++
    (if ('1' ≤ a && a ≤ '2') && b.isDigit then [(10 * digVal a + digVal b, r)] else []) ++
    (if a = '0' && ('1' ≤ b && b ≤ '9') then [(digVal b, r)] else []) ++
    (if '1' ≤ a && a ≤ '9' then [(digVal a, b :: r)] else [])
  | [a] => if '1' ≤ a && a ≤ '9' then [(digVal a, [])] else []
  | [] => []

/-- `%Y`: exactly four digits. -/
def year4 : List Char → Option (Nat × List Char)
  | a :: b :: c :: d :: r =>
    if a.isDigit && b.isDigit && c.isDigit && d.isDigit then
      some (natOfDigits [a, b, c, d], r)
    else none
  | _ => none

/-- `%y`: exactly two digits, with CPython's century rule. -/
def year2 : List Char → Option (Nat × List Char)
  | a :: b :: r =>
    if a.isDigit && b.isDigit then
      let yy := natOfDigits [a, b]
      some (if yy < 69 then 2000 + yy else 1900 + yy, r)
    else none
  | _ => none

/-- `\s+`: at least one whitespace character, consumed greedily. -/
def wsPlus (cs : List Char) : Option (List Char) :=
  match cs.span isPySpace with
  | (w, r) => if w.isEmpty then none else some r

/-- Full English month names with their numbers (for `%B`). -/
def monthFullNames : List (String × Nat) :=
  [("january", 1), ("february", 2), ("march", 3), ("april", 4),
   ("may", 5), ("june", 6), ("july", 7), ("august", 8),
   ("september", 9), ("october", 10), ("november", 11), ("december", 12)]

/-- Abbreviated English month names with their numbers (for `%b`). -/
def monthAbbrNames : List (String × Nat) :=
  [("jan", 1), ("feb", 2), ("mar", 3), ("apr", 4), ("may", 5), ("jun", 6),
   ("jul", 7), ("aug", 8), ("sep", 9), ("oct", 10), ("nov", 11), ("dec", 12)]

/-- Case-insensitive month-name parse against a name table. -/
def monthName (tbl : List (String × Nat)) (cs : List Char) : Option (Nat × List Char) :=
  firstSome tbl fun nm =>
    match dropLitCI nm.1.data cs with
    | some r => some (nm.2, r)
    | none => none

/-- Gregorian leap year (as `calendar.isleap` / `datetime`). -/
def isLeap (y : Nat) : Bool :=
  y % 4 = 0 && (y % 100 ≠ 0 || y % 400 = 0)

def daysInMonth (y m : Nat) : Nat :=
  if m = 2 then (if isLeap y then 29 else 28)
  else if m = 4 || m = 6 || m = 9 || m = 11 then 30
  else 31

/-- Validation performed by the `datetime` constructor after the regex
matched: year within range and day within the month. -/
def mkValidDate (y m d : Nat) : Option (Nat × Nat × Nat) :=
  if 1 ≤ y && y ≤ 9999 && 1 ≤ m && m ≤ 12 && 1 ≤ d && d ≤ daysInMonth y m then
    some (y, m, d)
  else none

/-- `strptime` with format `"%m/%d/%Y"` (regex phase only). -/
def fmtMdY (cs : List Char) : Option (Nat × Nat × Nat) :=
  firstSome (mCands cs) fun mc =>
    match mc.2 with
    | '/' :: r2 =>
      firstSome (dCands r2) fun dc =>
        match dc.2 with
        | '/' :: r4 =>
          match year4 r4 with
          | some (y, []) => some (y, mc.1, dc.1)
          | _ => none
        | _ => none
    | _ => none

/-- `strptime` with format `"%m/%d/%y"`. -/
def fmtMdy (cs : List Char) : Option (Nat × Nat × Nat) :=
  firstSome (mCands cs) fun mc =>
    match mc.2 with
    | '/' :: r2 =>
      firstSome (dCands r2) fun dc =>
        match dc.2 with
        | '/' :: r4 =>
          match year2 r4 with
          | some (y, []) => some (y, mc.1, dc.1)
          | _ => none
        | _ => none
    | _ => none

/-- `strptime` with format `"%Y-%m-%d"`. -/
def fmtYmdDash (cs : List Char) : Option (Nat × Nat × Nat) :=
  match year4 cs with
  | some (y, '-' :: r2) =>
    firstSome (mCands r2) fun mc =>
      match mc.2 with
      | '-' :: r4 =>
        firstSome (dCands r4) fun dc =>
          match dc.2 with
          | [] => some (y, mc.1, dc.1)
          | _ => none
      | _ => none
  | _ => none

/-- `strptime` with format `"%m-%d-%Y"`. -/
def fmtMdYDash (cs : List Char) : Option (Nat × Nat × Nat) :=
  firstSome (mCands cs) fun mc =>
    match mc.2 with
    | '-' :: r2 =>
      firstSome (dCands r2) fun dc =>
        match dc.2 with
        | '-' :: r4 =>
          match year4 r4 with
          | some (y, []) => some (y, mc.1, dc.1)
          | _ => none
        | _ => none
    | _ => none

/-- Shared tail of the month-name formats: `\s+ %d , \s+ %Y`. -/
def nameFmtTail (m : Nat) (r1 : List Char) : Option (Nat × Nat × Nat) :=
  match wsPlus r1 with
  | some r2 =>
    firstSome (dCands r2) fun dc =>
      match dc.2 with
      | ',' :: r4 =>
        match wsPlus r4 with
        | some r5 =>
          match year4 r5 with
          | some (y, []) => some (y, m, dc.1)
          | _ => none
        | none => none
      | _ => none
  | none => none

/-- `strptime` with format `"%B %d, %Y"`. -/
def fmtBdY (cs : List Char) : Option (Nat × Nat × Nat) :=
  match monthName monthFullNames cs with
  | some (m, r1) => nameFmtTail m r1
  | none => none

/-- `strptime` with format `"%b %d, %Y"`. -/
def fmtbdY (cs : List Char) : Option (Nat × Nat × Nat) :=
  match monthName monthAbbrNames cs with
  | some (m, r1) => nameFmtTail m r1
  | none => none

/-- `strptime` with format `"%Y/%m/%d"`. -/
def fmtYmdSlash (cs : List Char) : Option (Nat × Nat × Nat) :=
  match year4 cs with
  | some (y, '/' :: r2) =>
    firstSome (mCands r2) fun mc =>
      match mc.2 with
      | '/' :: r4 =>
        firstSome (dCands r4) fun dc =>
          match dc.2 with
          | [] => some (y, mc.1, dc.1)
          | _ => none
      | _ => none
  | _ => none

/-- The fixed ordered format list of `parse_date`, each format's regex
phase followed by `datetime` validation; the first format that fully
succeeds wins. -/
def firstFmt (cs : List Char) : Option (Nat × Nat × Nat) :=
  firstSome
    [fmtMdY, fmtMdy, fmtYmdDash, fmtMdYDash, fmtBdY, fmtbdY, fmtYmdSlash]
    fun f =>
      match f cs with
      | some (y, m, d) => mkValidDate y m d
      | none => none

/-- Fixed-width decimal rendering (for `strftime` zero padding). -/
def padNum (w n : Nat) : List Char :=
  let ds := (Nat.toDigits 10 n)
  List.replicate (w - ds.length) '0' ++ ds

/-- `strftime("%Y-%m-%d")` on the parsed date, zero-padded to 4/2/2
digits (the four-digit-year case is the only one exercised here;
platform `strftime` behavior for years below 1000 varies). -/
def isoOf (ymd : Nat × Nat × Nat) : String :=
  String.mk (padNum 4 ymd.1 ++ ['-'] ++ padNum 2 ymd.2.1 ++ ['-'] ++ padNum 2 ymd.2.2)

/-- `parse_date` from the source: empty string → `None`; otherwise try
the format list on the stripped text and fall back to the stripped text
itself. -/
def parse_date (date_str : String) : Option String :=
  if date_str == "" then none
  else
    let t := pyStrip date_str.data
    match firstFmt t with
    | some ymd => some (isoOf ymd)
    | none => some (String.mk t)

/-! ### `parse_value` and `parse_flag` -/

/-- A parsed lab value: Python stores either a float or the original
string under the `value` key. -/
inductive PyVal where
  | num : PyFloat → PyVal
  | str : String → PyVal
deriving DecidableEq

/-- Result dictionary of `parse_value`: `raw` / `value` / `qualifier`
keys, `none` when the key is absent (or holds Python `None`). -/
structure ParsedValue where
  raw : Option String
  value : Option PyVal
  qualifier : Option String
deriving DecidableEq

/-- `parse_value` from the source: strip, branch on a leading `<` / `>`
(numeric-parse failure there leaves both `value` and `qualifier`
absent, because the exception skips the qualifier assignment), else a
full numeric parse falling back to the text itself. -/
def parse_value (value_str : String) : ParsedValue :=
  if value_str == "" then ⟨none, none, none⟩
  else
    let t := pyStrip value_str.data
    let raw := String.mk t
    if t.head? = some '<' then
      (match pyFloat? (String.mk t.tail) with
       | some f => ⟨some raw, some (.num f), some "<"⟩
       | none => ⟨some raw, none, none⟩)
    else if t.head? = some '>' then
      (match pyFloat? (String.mk t.tail) with
       | some f => ⟨some raw, some (.num f), some ">"⟩
       | none => ⟨some raw, none, none⟩)
    else
      (match pyFloat? raw with
       | some f => ⟨some raw, some (.num f), none⟩
       | none => ⟨some raw, some (.str raw), none⟩)

/-- `parse_flag` from the source: strip and upper-case, map the known
tokens, pass anything else through (empty → `None`). -/
def parse_flag (flag_str : String) : Option String :=
  if flag_str == "" then none
  else
    let u := String.mk ((pyStrip flag_str.data).map pyUpperC)
    if u = "H" || u = "HIGH" then some "High"
    else if u = "L" || u = "LOW" then some "Low"
    else if u = "A" || u = "ABNORMAL" then some "Abnormal"
    else if u = "C" || u = "CRITICAL" then some "Critical"
    else if u = "" then none
    else some u

/-- `parse_flag` applied to a value that may be Python `None` (the flag
capture group of a line match). -/
def parse_flagO : Option String → Option String
  | none => none
  | some s => parse_flag s

/-! ### `parse_reference_range` -/

/-- Result dictionary of `parse_reference_range`; absent keys are
`none`. -/
structure RefRange where
  established : Bool
  raw : Option String
  min? : Option PyFloat
  max? : Option PyFloat
  expected : Option String
deriving DecidableEq

def isDigitDot (c : Char) : Bool := c.isDigit || c = '.'

/-- Regex `^([<>]?\s*[\d.]+)\s*[-–]\s*([\d.]+)$` of
`parse_reference_range`: returns the two captured groups.  All the
character classes involved are disjoint from their successors, so the
greedy runs are deterministic. -/
def rrRange (cs : List Char) : Option (List Char × List Char) :=
  let qualAndRest : List Char × List Char :=
    match cs with
    | '<' :: r => (['<'], r)
    | '>' :: r => (['>'], r)
    | _ => ([], cs)
  match (qualAndRest.2.span isPySpace) with
  | (ws, r1) =>
    match r1.span isDigitDot with
    | ([], _) => none
    | (ds, r2) =>
      let g1 := qualAndRest.1 ++ ws ++ ds
      match (r2.span isPySpace).2 with
      | d :: r3 =>
        if d = '-' || d = '–' then
          match (r3.span isPySpace).2.span isDigitDot with
          | ([], _) => none
          | (ds2, r4) => if r4 = [] then some (g1, ds2) else none
        else none
      | [] => none

/-- Regex `^([<>])\s*([\d.]+)$`: qualifier and captured number text. -/
def rrThreshold (cs : List Char) : Option (Char × List Char) :=
  match cs with
  | q :: r =>
    if q = '<' || q = '>' then
      match (r.span isPySpace).2.span isDigitDot with
      | ([], _) => none
      | (ds, rest) => if rest = [] then some (q, ds) else none
    else none
  | [] => none

/-- Regex `^([<>]=?)\s*([\d.]+)$`: operator text and captured number. -/
def rrThresholdEq (cs : List Char) : Option (Char × List Char) :=
  match cs with
  | q :: r =>
    if q = '<' || q = '>' then
      let r1 := match r with | '=' :: r2 => r2 | _ => r
      match (r1.span isPySpace).2.span isDigitDot with
      | ([], _) => none
      | (ds, rest) => if rest = [] then some (q, ds) else none
    else none
  | [] => none

/-- `parse_reference_range` from the source.  The result is `none` when
the Python code raises an uncaught `ValueError` (a `float()` call on a
regex-captured token that is not a valid numeral — the `float` calls
here are not wrapped in `try`). -/
def parse_reference_range (ref_str : String) : Option RefRange :=
  let low := String.mk (pyLower ref_str.data)
  if ref_str == "" || low = "not estab." || low = "not established" then
    some ⟨false, none, none, none, none⟩
  else
    let t := pyStrip ref_str.data
    let raw := some (String.mk t)
    match rrRange t with
    | some (g1, g2) =>
      let minTxt := String.mk (pyStrip (g1.filter fun c => c ≠ '<' && c ≠ '>'))
      (match pyFloat? minTxt, pyFloat? (String.mk g2) with
       | some v1, some v2 => some ⟨true, raw, some v1, some v2, none⟩
       | _, _ => none)
    | none =>
      match rrThreshold t with
      | some (q, ds) =>
        (match pyFloat? (String.mk ds) with
         | some v => if q = '>' then some ⟨true, raw, some v, none, none⟩
                     else some ⟨true, raw, none, some v, none⟩
         | none => none)
      | none =>
        match rrThresholdEq t with
        | some (q, ds) =>
          (match pyFloat? (String.mk ds) with
           | some v => if q = '>' then some ⟨true, raw, some v, none, none⟩
                       else some ⟨true, raw, none, some v, none⟩
           | none => none)
        | none =>
          let tlow := pyLower t
          if tlow = "negative".data || tlow = "non reactive".data || tlow = "non-reactive".data then
            some ⟨true, raw, none, none, some "Negative"⟩
          else if hasSub "class 0".data tlow then
            some ⟨true, raw, none, none, some "Class 0"⟩
          else
            some ⟨true, raw, none, none, none⟩

/-! ### Data model: lab results, allergens, medications -/

/-- One laboratory result dictionary as built in `_parse_lab_results`. -/
structure LabResult where
  test_name : String
  value : ParsedValue
  units : Option String
  reference_range : Option RefRange
  flag : Option String
  date_collected : Option String
  panel : Option String
  ordering_physician : Option String
  specimen_id : Option String
  source_format : String
deriving DecidableEq

/-- Python `str(x)` on an optional string (`str(None) = "None"`), used
to build the deduplication key. -/
def pyStrOpt : Option String → String
  | none => "None"
  | some s => s

/-- Deduplication key of `_build_output`:
`(test_name, date_collected, str(value raw))`. -/
def labKey (r : LabResult) : String × Option String × String :=
  (r.test_name, r.date_collected, pyStrOpt r.value.raw)

/-- The dedup loop of `_build_output`, with the `seen` set of keys made
explicit (membership-only use, so a list models the Python set). -/
def dedupLabs (seen : List (String × Option String × String)) :
    List LabResult → List LabResult
  | [] => []
  | r :: rs =>
    if labKey r ∈ seen then dedupLabs seen rs
    else r :: dedupLabs (labKey r :: seen) rs

/-- Spec-side formulation of deduplication, written exactly per the
spec's words: walk the list in order, keep a result when its key has not
been kept before (first occurrence wins, first-seen order preserved). -/
def specDedup (l : List LabResult) : List LabResult :=
  l.foldl (fun acc r => if labKey r ∈ acc.map labKey then acc else acc ++ [r]) []

/-! ### Categorization engine (`_build_output`) -/

def hematologyTerms : List String :=
  ["wbc", "rbc", "hemoglobin", "hematocrit", "platelet", "neutrophil",
   "lymph", "mono", "eos", "baso", "mcv", "mch"]

def metabolicTerms : List String :=
  ["glucose", "bun", "creatinine", "sodium", "potassium", "chloride",
   "carbon dioxide", "calcium", "phosphorus", "magnesium", "egfr"]

def liverTerms : List String :=
  ["albumin", "protein", "bilirubin", "alkaline", "ast", "alt", "ggt", "ldh"]

def lipidTerms : List String :=
  ["cholesterol", "triglyceride", "hdl", "ldl", "vldl", "lipid"]

def thyroidTerms : List String := ["tsh", "thyroid", "t4", "t3", "tpo"]

def vitaminTerms : List String :=
  ["vitamin", "b12", "folate", "iron", "ferritin", "tibc"]

def inflammatoryTerms : List String := ["crp", "esr", "sed rate", "sedimentation"]

def autoimmuneTerms : List String :=
  ["ana", "anti-", "rf", "rheumatoid", "complement", "hla", "smith",
   "ss-a", "ss-b", "ccp"]

def infectiousTerms : List String :=
  ["hep", "hiv", "ebv", "lyme", "quantiferon", "hbsag", "hcv"]

def urinalysisTerms : List String :=
  ["urin", "wbc esterase", "specific gravity", "ph", "ketone", "nitrite",
   "protein/creat", "albumin/creat"]

def specialtyTerms : List String :=
  ["creatine kinase", "ck", "aldosterone", "renin", "homocysteine", "osteocalcin"]

/-- Python `any(term in name for term in terms)`. -/
def anyTermIn (terms : List String) (name : List Char) : Bool :=
  terms.any fun t => hasSub t.data name

/-- The keyword rule chain of `_build_output` on an already lower-cased
name: first matching rule wins, `"other"` when none match. -/
def categorizeL (n : List Char) : String :=
  if anyTermIn hematologyTerms n then "hematology"
  else if anyTermIn metabolicTerms n then "metabolic"
  else if anyTermIn liverTerms n then "liver"
  else if anyTermIn lipidTerms n then "lipid"
  else if anyTermIn thyroidTerms n then "thyroid"
  else if anyTermIn vitaminTerms n then "vitamins_minerals"
  else if anyTermIn inflammatoryTerms n then "inflammatory_markers"
  else if anyTermIn autoimmuneTerms n then "autoimmune"
  else if anyTermIn infectiousTerms n then "infectious_disease"
  else if anyTermIn urinalysisTerms n then "urinalysis"
  else if hasSub "factor".data n || hasSub "antiphospholipid".data n
          || hasSub "anticardiolipin".data n then "coagulation"
  else if anyTermIn specialtyTerms n then "specialty"
  else "other"

/-- The category assignment of `_build_output`: lower-case the test name
and apply the ordered keyword rules. -/
def categorize (test_name : String) : String :=
  categorizeL (pyLower test_name.data)

/-- The thirteen fixed category names, in rule order. -/
def categoryNames : List String :=
  ["hematology", "metabolic", "liver", "lipid", "thyroid",
   "vitamins_minerals", "inflammatory_markers", "autoimmune",
   "infectious_disease", "urinalysis", "coagulation", "specialty", "other"]

/-- The category group of `_build_output`'s `lab_categories` dict: the
loop appends each result to exactly the bucket of its category, in input
order, which is the in-order filter. -/
def labCategories (l : List LabResult) (c : String) : List LabResult :=
  l.filter fun r => categorize r.test_name == c

/-! ### Line matchers of `_parse_lab_results`

Each mirrors one of the three `test_patterns` regexes tried per line (in
order), reproducing lazy/greedy group semantics by trying continuation
positions shortest-first (lazy `+?`) or longest-first (greedy `+`). -/

/-- Character class of the labcorp test-name group
`[A-Za-z0-9\s\-\(\),./\']`. -/
def isLcClass (c : Char) : Bool :=
  c.isAlpha || c.isDigit || isPySpace c ||
  c = '-' || c = '(' || c = ')' || c = ',' || c = '.' || c = '/' || c = '\''

/-- Character class of the quest test-name group `[A-Z0-9\s\-\(\),./]`. -/
def isQClass (c : Char) : Bool :=
  ('A' ≤ c && c ≤ 'Z') || c.isDigit || isPySpace c ||
  c = '-' || c = '(' || c = ')' || c = ',' || c = '.' || c = '/'

/-- ASCII `\w`. -/
def isWordC (c : Char) : Bool := c.isAlpha || c.isDigit || c = '_'

/-- Character class `[\w\s,]` of the allergen-line name group. -/
def isAgBody (c : Char) : Bool := isWordC c || isPySpace c || c = ','

/-- All prefix/suffix splits of a list, ascending by prefix length. -/
def ascSplits : List Char → List (List Char × List Char)
  | [] => [([], [])]
  | c :: t => ([], c :: t) :: (ascSplits t).map fun p => (c :: p.1, p.2)

/-- Splits of `run` (with trailing `rest` appended to the suffix),
longest prefix first, keeping prefixes of length at least `minLen` —
the candidate order of a greedy `+` group followed by backtracking. -/
def descSplits (minLen : Nat) (run rest : List Char) : List (List Char × List Char) :=
  (((ascSplits run).map fun p => (p.1, p.2 ++ rest)).reverse).filter
    fun p => minLen ≤ p.1.length

/-- The value alternation
`[<>]?[\d.]+|Negative|Positive|Non Reactive|<\d+` of the labcorp line
pattern, alternatives tried in the regex's order. -/
def valueAlt (cs : List Char) : Option (List Char × List Char) :=
  let altA : Option (List Char × List Char) :=
    match cs with
    | '<' :: r =>
      (match r.span isDigitDot with
       | ([], _) => none
       | (ds, rest) => some ('<' :: ds, rest))
    | '>' :: r =>
      (match r.span isDigitDot with
       | ([], _) => none
       | (ds, rest) => some ('>' :: ds, rest))
    | _ =>
      (match cs.span isDigitDot with
       | ([], _) => none
       | (ds, rest) => some (ds, rest))
  match altA with
  | some x => some x
  | none =>
    match dropLit "Negative".data cs with
    | some r => some ("Negative".data, r)
    | none =>
      match dropLit "Positive".data cs with
      | some r => some ("Positive".data, r)
      | none =>
        match dropLit "Non Reactive".data cs with
        | some r => some ("Non Reactive".data, r)
        | none =>
          match cs with
          | '<' :: r =>
            (match r.span Char.isDigit with
             | ([], _) => none
             | (ds, rest) => some ('<' :: ds, rest))
          | _ => none

/-- Trailing `\s*(High|Low|H|L)?` of the labcorp pattern: the whitespace
is consumed either way; the flag alternatives are tried in order. -/
def flagPart (cs : List Char) : Option (List Char) × List Char :=
  let r := cs.dropWhile isPySpace
  match dropLit "High".data r with
  | some rest => (some "High".data, rest)
  | none =>
    match dropLit "Low".data r with
    | some rest => (some "Low".data, rest)
    | none =>
      match r with
      | 'H' :: rest => (some ['H'], rest)
      | 'L' :: rest => (some ['L'], rest)
      | _ => (none, r)

/-- Continuation `\s+0[123]\s+VALUE\s*(FLAG)?` after the labcorp name
group; returns (value, flag, remainder after the whole match). -/
def lcTail (cs : List Char) : Option (List Char × Option (List Char) × List Char) :=
  match wsPlus cs with
  | none => none
  | some r1 =>
    match r1 with
    | '0' :: d :: r2 =>
      if d = '1' || d = '2' || d = '3' then
        match wsPlus r2 with
        | none => none
        | some r3 =>
          match valueAlt r3 with
          | none => none
          | some (v, r4) =>
            match flagPart r4 with
            | (fl, r5) => some (v, fl, r5)
      else none
    | _ => none

/-- Lazy extension of the labcorp name group `[A-Za-z0-9\s\-\(\),./\']+?`:
grow one character at a time, trying the continuation after each. -/
def lcName (acc : List Char) : List Char → Option (List Char × List Char × Option (List Char) × List Char)
  | [] => none
  | c :: t =>
    if isLcClass c then
      match lcTail t with
      | some (v, fl, rest) => some (acc ++ [c], v, fl, rest)
      | none => lcName (acc ++ [c]) t
    else none

/-- Labcorp line pattern
`^([A-Za-z][A-Za-z0-9\s\-\(\),./\']+?)\s+0[123]\s+(VALUE)\s*(FLAG)?`;
returns (name group, value group, flag group, remainder). -/
def labcorpMatch (cs : List Char) : Option (List Char × List Char × Option (List Char) × List Char) :=
  match cs with
  | c :: t => if c.isAlpha then lcName [c] t else none
  | [] => none

/-- Continuation of the quest pattern after the name group:
`\s+([\d.]+)\s*(H|L)?\s+Reference Range:`. -/
def questTail (cs : List Char) : Option (List Char × Option (List Char) × List Char) :=
  match wsPlus cs with
  | none => none
  | some r1 =>
    match r1.span isDigitDot with
    | ([], _) => none
    | (v, r2) =>
      match r2.span isPySpace with
      | (w, r3) =>
        let flagPath : Option (List Char × Option (List Char) × List Char) :=
          match r3 with
          | f :: r4 =>
            if f = 'H' || f = 'L' then
              match wsPlus r4 with
              | some r5 =>
                (match dropLit "Reference Range:".data r5 with
                 | some rest => some (v, some [f], rest)
                 | none => none)
              | none => none
            else none
          | [] => none
        match flagPath with
        | some x => some x
        | none =>
          if w.isEmpty then none
          else
            match dropLit "Reference Range:".data r3 with
            | some rest => some (v, none, rest)
            | none => none

/-- Quest line pattern
`^([A-Z][A-Z0-9\s\-\(\),./]+)\s+([\d.]+)\s*(H|L)?\s+Reference Range:`
with a greedy name group. -/
def questMatch (cs : List Char) : Option (List Char × List Char × Option (List Char) × List Char) :=
  match cs with
  | c :: t =>
    if 'A' ≤ c && c ≤ 'Z' then
      match t.span isQClass with
      | (run, rest0) =>
        firstSome (descSplits 1 run rest0) fun p =>
          match questTail p.2 with
          | some (v, fl, rest) => some (c :: p.1, v, fl, rest)
          | none => none
    else none
  | [] => none

/-- Continuation `\s+0\d\s+([<>]?[\d.]+)\s+(\w+/\w+)\s+(Class \d)` of
the in-loop allergen pattern; returns (value, units, remainder). -/
def agTail (cs : List Char) : Option (List Char × List Char × Char × List Char) :=
  match wsPlus cs with
  | none => none
  | some r1 =>
    match r1 with
    | '0' :: d :: r2 =>
      if ¬ d.isDigit then none
      else
        match wsPlus r2 with
        | none => none
        | some r3 =>
          let valPart : Option (List Char × List Char) :=
            match r3 with
            | '<' :: rr =>
              (match rr.span isDigitDot with
               | ([], _) => none
               | (ds, rest) => some ('<' :: ds, rest))
            | '>' :: rr =>
              (match rr.span isDigitDot with
               | ([], _) => none
               | (ds, rest) => some ('>' :: ds, rest))
            | _ =>
              (match r3.span isDigitDot with
               | ([], _) => none
               | (ds, rest) => some (ds, rest))
          match valPart with
          | none => none
          | some (v, r4) =>
            match wsPlus r4 with
            | none => none
            | some r5 =>
              match r5.span isWordC with
              | ([], _) => none
              | (w1, r6) =>
                match r6 with
                | '/' :: r7 =>
                  match r7.span isWordC with
                  | ([], _) => none
                  | (w2, r8) =>
                    match wsPlus r8 with
                    | none => none
                    | some r9 =>
                      match dropLit "Class ".data r9 with
                      | some (dc :: rest) =>
                        if dc.isDigit then some (v, w1 ++ ['/'] ++ w2, dc, rest)
                        else none
                      | _ => none
                | _ => none
    | _ => none

/-- In-loop allergen line pattern
`^([A-Z]\d+-IgE\s+[\w\s,]+)\s+0\d\s+([<>]?[\d.]+)\s+(\w+/\w+)\s+(Class \d)`.
The `\s+` inside the name group and the greedy `[\w\s,]+` (whose class
contains `\s`) jointly amount to: at least one whitespace then at least
one class character, with the group end tried longest-first. -/
def agLoopMatch (cs : List Char) : Option (List Char × List Char × List Char × List Char) :=
  match cs with
  | c0 :: t0 =>
    if 'A' ≤ c0 && c0 ≤ 'Z' then
      match t0.span Char.isDigit with
      | ([], _) => none
      | (ds, t1) =>
        match dropLit "-IgE".data t1 with
        | some t2 =>
          (match t2 with
           | c2 :: _ =>
             if isPySpace c2 then
               match t2.span isAgBody with
               | (run, rest0) =>
                 firstSome (descSplits 2 run rest0) fun p =>
                   match agTail p.2 with
                   | some (v, u, _, rest) =>
                     some (c0 :: (ds ++ "-IgE".data ++ p.1), v, u, rest)
                   | none => none
             else none
           | [] => none)
        | none => none
    else none
  | [] => none

/-! ### Secondary units/reference extraction -/

/-- Character class `[\d.<>-]` of the reference capture. -/
def isRefC (c : Char) : Bool :=
  c.isDigit || c = '.' || c = '<' || c = '>' || c = '-'

def isAsciiAlpha (c : Char) : Bool := c.isAlpha

/-- Candidates for one optional `(?:/[a-zA-Z]+)?` group: take it (inner
run longest first) before skipping it. -/
def optSlash (cs : List Char) : List (List Char × List Char) :=
  (match cs with
   | '/' :: s1 =>
     (match s1.span isAsciiAlpha with
      | (irun, irest) => (descSplits 1 irun irest).map fun p => ('/' :: p.1, p.2))
   | _ => []) ++ [([], cs)]

/-- Candidates for the optional `(?:E\d+)?` group. -/
def optE (cs : List Char) : List (List Char × List Char) :=
  (match cs with
   | 'E' :: s1 =>
     (match s1.span Char.isDigit with
      | ([], _) => []
      | (ds, r) => [('E' :: ds, r)])
   | _ => []) ++ [([], cs)]

/-- One anchored attempt of the units/reference regex
`([a-zA-Z]+(?:/[a-zA-Z]+)?(?:E\d+)?(?:/[a-zA-Z]+)?)\s+([\d.<>-]+)`. -/
def unitAt (cs : List Char) : Option (List Char × List Char) :=
  match cs.span isAsciiAlpha with
  | ([], _) => none
  | (run, rest0) =>
    firstSome (descSplits 1 run rest0) fun p =>
      firstSome (optSlash p.2) fun o1 =>
        firstSome (optE o1.2) fun o2 =>
          firstSome (optSlash o2.2) fun o3 =>
            match wsPlus o3.2 with
            | none => none
            | some s4 =>
              match s4.span isRefC with
              | ([], _) => none
              | (ref, _) => some (p.1 ++ o1.1 ++ o2.1 ++ o3.1, ref)

/-- `re.search` of the units/reference regex: leftmost successful
position. -/
def unitSearch : List Char → Option (List Char × List Char)
  | [] => none
  | c :: t =>
    match unitAt (c :: t) with
    | some r => some r
    | none => unitSearch t

/-! ### Per-line result emission -/

/-- Header/noise markers: a line containing any of them is skipped. -/
def skipLine (line : List Char) : Bool :=
  ["Test Current Result", "TESTS RESULT", "Analyte Value", "©",
   "Laboratory Corporation"].any fun m => hasSub m.data line

/-- Per-page parse context carried across lines. -/
structure Ctx where
  date? : Option String
  panel? : Option String
  physician? : Option String
  specimen? : Option String
deriving DecidableEq

/-- False-positive rejection: name shorter than 3 characters or starting
with `Page`. -/
def nameRejected (tn : List Char) : Bool :=
  tn.length < 3 || leadsWith "Page".data tn

/-- Build the emitted result dictionary for a successful line match.
`none` models the uncaught `ValueError` that
`parse_reference_range` can raise on the captured reference text.  Note
`rest_of_line` is taken from the original (unstripped) line at the match
end offset computed on the stripped line, exactly as the source does. -/
def mkLabResult (ctx : Ctx) (lineData stripped g1 g2 : List Char)
    (g3 : Option (List Char)) (rest : List Char) (fmt : String) :
    Option LabResult :=
  let matchEnd := stripped.length - rest.length
  let rol := pyStrip (lineData.drop matchEnd)
  let unitsRef := unitSearch rol
  let refOpt : Option (Option RefRange) :=
    match unitsRef with
    | none => some none
    | some (_, ref) => (parse_reference_range (String.mk ref)).map some
  match refOpt with
  | none => none
  | some rr =>
    some
      { test_name := String.mk (pyStrip g1)
        value := parse_value (String.mk g2)
        units := match unitsRef with | none => none | some (u, _) => some (String.mk u)
        reference_range := rr
        flag := parse_flagO (g3.map String.mk)
        date_collected := ctx.date?
        panel := ctx.panel?
        ordering_physician := ctx.physician?
        specimen_id := ctx.specimen?
        source_format := fmt }

/-- The per-line loop body of `_parse_lab_results`: skip noise lines,
try the three patterns in order on the stripped line; a match rejected
by the name check falls through to the next pattern; the first accepted
match emits one result.  `none` models an uncaught exception. -/
def processLine (ctx : Ctx) (line : String) : Option (List LabResult) :=
  if skipLine line.data then some []
  else
    let stripped := pyStrip line.data
    let tryAllergen : Option (List LabResult) :=
      match agLoopMatch stripped with
      | some (g1, g2, g3, rest) =>
        if nameRejected (pyStrip g1) then some []
        else (mkLabResult ctx line.data stripped g1 g2 (some g3) rest "allergen").map ([·])
      | none => some []
    let tryQuest : Option (List LabResult) :=
      match questMatch stripped with
      | some (g1, g2, g3, rest) =>
        if nameRejected (pyStrip g1) then tryAllergen
        else (mkLabResult ctx line.data stripped g1 g2 g3 rest "quest").map ([·])
      | none => tryAllergen
    match labcorpMatch stripped with
    | some (g1, g2, g3, rest) =>
      if nameRejected (pyStrip g1) then tryQuest
      else (mkLabResult ctx line.data stripped g1 g2 g3 rest "labcorp").map ([·])
    | none => tryQuest

/-! ### Page segmentation and per-page context updates -/

/-- Page-boundary marker regex `=== PAGE \d+ ===`; returns the remainder
after a marker anchored at the front. -/
def markerMatch (cs : List Char) : Option (List Char) :=
  match dropLit "=== PAGE ".data cs with
  | some r1 =>
    (match r1.span Char.isDigit with
     | ([], _) => none
     | (_, r2) => dropLit " ===".data r2)
  | none => none

/-- Fuelled splitter: the fuel (initially the text length) dominates the
number of consumed characters, so it never runs out. -/
def spGo : Nat → List Char → List Char → List (List Char)
  | 0, acc, _ => [acc.reverse]
  | _ + 1, acc, [] => [acc.reverse]
  | fuel + 1, acc, c :: t =>
    match markerMatch (c :: t) with
    | some rest => acc.reverse :: spGo fuel [] rest
    | none => spGo fuel (c :: acc) t

/-- `re.split(r'=== PAGE \d+ ===', text)` of `_split_pages`. -/
def splitPages (cs : List Char) : List (List Char) := spGo cs.length [] cs

/-- Leftmost-position scan (`re.search`). -/
def scanFirst (f : List Char → Option α) : List Char → Option α
  | [] => none
  | c :: t =>
    match f (c :: t) with
    | some a => some a
    | none => scanFirst f t

/-- Anchored attempt of `Date Collected:\s*(\d{2}/\d{2}/\d{4})`,
returning the captured date text. -/
def dateAt (cs : List Char) : Option (List Char) :=
  match dropLit "Date Collected:".data cs with
  | some r1 =>
    (match r1.dropWhile isPySpace with
     | a :: b :: '/' :: c :: d :: '/' :: e :: f :: g :: h :: _ =>
       if a.isDigit && b.isDigit && c.isDigit && d.isDigit &&
          e.isDigit && f.isDigit && g.isDigit && h.isDigit then
         some [a, b, '/', c, d, '/', e, f, g, h]
       else none
     | _ => none)
  | none => none

/-- Anchored attempt of `Ordering Physician:\s*([A-Z]\s+[A-Z]+)`. -/
def physicianAt (cs : List Char) : Option (List Char) :=
  match dropLit "Ordering Physician:".data cs with
  | some r1 =>
    (match r1.dropWhile isPySpace with
     | u :: r3 =>
       if 'A' ≤ u && u ≤ 'Z' then
         match r3.span isPySpace with
         | ([], _) => none
         | (w, r4) =>
           match r4.span (fun c => 'A' ≤ c && c ≤ 'Z') with
           | ([], _) => none
           | (run, _) => some (u :: (w ++ run))
       else none
     | [] => none)
  | none => none

/-- Anchored attempt of `Specimen ID:\s*([\d\-]+)`. -/
def specimenAt (cs : List Char) : Option (List Char) :=
  match dropLit "Specimen ID:".data cs with
  | some r1 =>
    (match (r1.dropWhile isPySpace).span (fun c => c.isDigit || c = '-') with
     | ([], _) => none
     | (run, _) => some run)
  | none => none

/-! ### Panel-name patterns (`re.MULTILINE | re.IGNORECASE` searches) -/

/-- Leftmost match of an anchored-at-line-start matcher under
`re.MULTILINE`: try the start of the string and every position after a
newline. -/
def scanAfterNl (f : List Char → Option α) : List Char → Option α
  | [] => none
  | c :: t =>
    if c = '\n' then
      match f t with
      | some a => some a
      | none => scanAfterNl f t
    else scanAfterNl f t

def scanLineStarts (f : List Char → Option α) (cs : List Char) : Option α :=
  match f cs with
  | some a => some a
  | none => scanAfterNl f cs

/-- Rightmost index of a newline in the list, if any. -/
def lastIdxNl : List Char → Option Nat
  | [] => none
  | c :: t =>
    match lastIdxNl t with
    | some k => some (k + 1)
    | none => if c = '\n' then some 0 else none

/-- Anchored attempt of `^(CBC[/\w\s]+)$` (the `$` is a MULTILINE
line-boundary; the greedy class run, whose class contains `\n`,
backtracks to the last newline inside it, or to the end of string). -/
def cbcAt (cs : List Char) : Option (List Char) :=
  match dropLitCI "cbc".data cs with
  | some r1 =>
    (match r1.span (fun c => c = '/' || isWordC c || isPySpace c) with
     | ([], _) => none
     | (run, rest0) =>
       if rest0 = [] then some (cs.take (3 + run.length))
       else
         match lastIdxNl run with
         | some k => if k = 0 then none else some (cs.take (3 + k))
         | none => none)
  | none => none

/-- Anchored attempt of `^(LIT[^$]*)`: the tail class excludes only the
literal dollar character, so the group runs to the first `$` or the end
of the page. -/
def litTailAt (lit : String) (cs : List Char) : Option (List Char) :=
  match dropLitCI lit.data cs with
  | some r1 =>
    (match r1.span (fun c => c ≠ '$') with
     | (run, _) => some (cs.take (lit.length + run.length)))
  | none => none

/-- Anchored attempt of a plain literal pattern `^(LIT)`. -/
def plainLitAt (lit : String) (cs : List Char) : Option (List Char) :=
  match dropLitCI lit.data cs with
  | some _ => some (cs.take lit.length)
  | none => none

/-- Anchored attempt of `^(Comp\.?\s*Metabolic Panel[^$]*)`. -/
def compAt (cs : List Char) : Option (List Char) :=
  match dropLitCI "comp".data cs with
  | some r1 =>
    let dotAndRest : Nat × List Char :=
      match r1 with
      | '.' :: rr => (1, rr)
      | _ => (0, r1)
    match (dotAndRest.2.span isPySpace) with
    | (w, r3) =>
      match dropLitCI "metabolic panel".data r3 with
      | some r4 =>
        (match r4.span (fun c => c ≠ '$') with
         | (run, _) =>
           some (cs.take (4 + dotAndRest.1 + w.length + 15 + run.length)))
      | none => none
  | none => none

/-- One panel-pattern update step: a successful search overwrites the
current panel with the stripped captured group. -/
def panelStep (cur : Option String) (r : Option (List Char)) : Option String :=
  match r with
  | some g => some (String.mk (pyStrip g))
  | none => cur

/-- The thirteen panel patterns applied in source order, each matching
pattern overwriting `current_panel`. -/
def panelUpdate (cur : Option String) (page : List Char) : Option String :=
  let c1 := panelStep cur (scanLineStarts cbcAt page)
  let c2 := panelStep c1 (scanLineStarts (litTailAt "basic metabolic panel") page)
  let c3 := panelStep c2 (scanLineStarts compAt page)
  let c4 := panelStep c3 (scanLineStarts (litTailAt "hepatic function panel") page)
  let c5 := panelStep c4 (scanLineStarts (plainLitAt "iron and tibc") page)
  let c6 := panelStep c5 (scanLineStarts (plainLitAt "vitamin b12 and folate") page)
  let c7 := panelStep c6 (scanLineStarts (litTailAt "lipid panel") page)
  let c8 := panelStep c7 (scanLineStarts (litTailAt "renal panel") page)
  let c9 := panelStep c8 (scanLineStarts (litTailAt "urinalysis") page)
  let c10 := panelStep c9 (scanLineStarts (plainLitAt "pre-biologic screening profile") page)
  let c11 := panelStep c10 (scanLineStarts (litTailAt "ra profile") page)
  let c12 := panelStep c11 (scanLineStarts (litTailAt "celiac ab") page)
  panelStep c12 (scanLineStarts (litTailAt "thyroid") page)

/-- Per-page context update of `_parse_lab_results`: each successful
search overwrites the corresponding sticky field. -/
def updateCtx (ctx : Ctx) (page : List Char) : Ctx :=
  let d := match scanFirst dateAt page with
           | some g => parse_date (String.mk g)
           | none => ctx.date?
  let ph := match scanFirst physicianAt page with
            | some g => some (String.mk (pyStrip g))
            | none => ctx.physician?
  let sp := match scanFirst specimenAt page with
            | some g => some (String.mk g)
            | none => ctx.specimen?
  ⟨d, panelUpdate ctx.panel? page, ph, sp⟩

/-! ### Laboratory extraction over the whole text -/

/-- Python `str.split('\n')`. -/
def splitOnNl : List Char → List (List Char)
  | [] => [[]]
  | c :: t =>
    if c = '\n' then [] :: splitOnNl t
    else
      match splitOnNl t with
      | l :: ls => (c :: l) :: ls
      | [] => [[c]]

/-- Process the lines of one page in order, concatenating emitted
results; `none` propagates an uncaught exception. -/
def linesResults (ctx : Ctx) : List (List Char) → Option (List LabResult)
  | [] => some []
  | l :: ls =>
    match processLine ctx (String.mk l) with
    | none => none
    | some rs =>
      match linesResults ctx ls with
      | none => none
      | some rest => some (rs ++ rest)

/-- The page loop of `_parse_lab_results`: update the sticky context,
then process each line. -/
def labPages (ctx : Ctx) : List (List Char) → Option (List LabResult)
  | [] => some []
  | p :: ps =>
    let ctx' := updateCtx ctx p
    match linesResults ctx' (splitOnNl p) with
    | none => none
    | some rs =>
      match labPages ctx' ps with
      | none => none
      | some rest => some (rs ++ rest)

/-- All laboratory results accumulated by `_parse_lab_results` (the
dedicated `_parse_cbc` etc. helpers are `pass` bodies and add nothing). -/
def labResultsOfText (text : String) : Option (List LabResult) :=
  labPages ⟨none, none, none, none⟩ (splitPages text.data)

/-- Deduplicated results as assembled by `_build_output`. -/
def uniqueLabsOfText (text : String) : Option (List LabResult) :=
  (labResultsOfText text).map (dedupLabs [])

/-! ### Allergy/IgE extractor (`_parse_allergies`) -/

/-- One allergy entry dictionary; `none` marks an absent key (the Total
IgE entries carry a different key set, matching the source's dicts). -/
structure Allergen where
  code : String
  name : String
  category : String
  value : ParsedValue
  units : String
  class? : Option Nat
  interpretation : Option String
  reference_range : Option RefRange
  date_collected : Option String
  is_positive : Bool
  is_screening : Bool
deriving DecidableEq

/-- The fixed `allergen_codes` table (`dict.get` default `Unknown`). -/
def allergenCodes (c : Char) : String :=
  if c = 'D' then "Dust Mites"
  else if c = 'E' then "Animal Dander"
  else if c = 'G' then "Grasses"
  else if c = 'I' then "Insects"
  else if c = 'M' then "Molds"
  else if c = 'T' then "Trees"
  else if c = 'W' then "Weeds"
  else if c = 'F' then "Foods"
  else "Unknown"

/-- The `ige_classes` interpretation table, looked up by the integer
class (`dict.get(..., {}).get("level", "Unknown")`; the `"0/I"` string
key of the source table is unreachable from an integer key). -/
def igeLevel : Nat → String
  | 0 => "Negative"
  | 1 => "Low"
  | 2 => "Moderate"
  | 3 => "High"
  | 4 => "Very High"
  | 5 => "Very High"
  | 6 => "Very High"
  | _ => "Unknown"

/-- Captured groups of the full-text allergen pattern. -/
structure AgCaps where
  codeLetter : Char
  codeDigits : List Char
  name : List Char
  valueStr : List Char
  units : List Char
  classNum : Nat
deriving DecidableEq

/-- Lazy name group `[A-Za-z\s,/]+?` of the full-text allergen pattern:
grow one character at a time, trying the tail after each step. -/
def agNameLazy (acc : List Char) :
    List Char → Option (List Char × List Char × List Char × Char × List Char)
  | [] => none
  | c :: t =>
    if c.isAlpha || isPySpace c || c = ',' || c = '/' then
      match agTail t with
      | some (v, u, dc, rest) => some (acc ++ [c], v, u, dc, rest)
      | none => agNameLazy (acc ++ [c]) t
    else none

/-- Anchored attempt of the full-text allergen pattern
`([DEGIMTWF]\d+)-IgE\s+([A-Za-z][A-Za-z\s,/]+?)\s+0\d\s+([<>]?[\d.]+)\s+(\w+/\w+)\s+(Class \d)`;
returns the captures and the remainder after the match. -/
def agCapsAt (cs : List Char) : Option (AgCaps × List Char) :=
  match cs with
  | c0 :: t0 =>
    if c0 = 'D' || c0 = 'E' || c0 = 'G' || c0 = 'I' || c0 = 'M' ||
       c0 = 'T' || c0 = 'W' || c0 = 'F' then
      match t0.span Char.isDigit with
      | ([], _) => none
      | (ds, t1) =>
        match dropLit "-IgE".data t1 with
        | some t2 =>
          (match wsPlus t2 with
           | some t3 =>
             (match t3 with
              | n0 :: t4 =>
                if n0.isAlpha then
                  match agNameLazy [n0] t4 with
                  | some (nm, v, u, dc, rest) =>
                    some (⟨c0, ds, nm, v, u, digVal dc⟩, rest)
                  | none => none
                else none
              | [] => none)
           | none => none)
        | none => none
    else none
  | [] => none

/-- `finditer` of the allergen pattern: scan left to right, continuing
after each match (fuelled by the text length, which dominates the
consumed characters). -/
def agFinditer : Nat → List Char → List AgCaps
  | 0, _ => []
  | _ + 1, [] => []
  | fuel + 1, c :: t =>
    match agCapsAt (c :: t) with
    | some (caps, rest) => caps :: agFinditer fuel rest
    | none => agFinditer fuel t

/-- Build one allergy entry from the captures, as the loop body of
`_parse_allergies` does. -/
def mkAllergen (date? : Option String) (caps : AgCaps) : Allergen :=
  { code := String.mk (caps.codeLetter :: caps.codeDigits)
    name := String.mk (pyStrip caps.name)
    category := allergenCodes caps.codeLetter
    value := parse_value (String.mk caps.valueStr)
    units := String.mk caps.units
    class? := some caps.classNum
    interpretation := some (igeLevel caps.classNum)
    reference_range := none
    date_collected := date?
    is_positive := decide (caps.classNum > 0)
    is_screening := false }

/-- The per-page loop of `_parse_allergies`: sticky collection date,
then all pattern matches on the page. -/
def allergyPages (cur : Option String) : List (List Char) → List Allergen
  | [] => []
  | p :: ps =>
    let d := match scanFirst dateAt p with
             | some g => parse_date (String.mk g)
             | none => cur
    (agFinditer p.length p).map (mkAllergen d) ++ allergyPages d ps

/-- Anchored attempt of the Total IgE pattern
`Immunoglobulin E,\s*Total\s+0\d\s+(\d+)\s+(\w+/\w+)\s+([\d-]+)`. -/
def igeTotalAt (cs : List Char) :
    Option ((List Char × List Char × List Char) × List Char) :=
  match dropLit "Immunoglobulin E,".data cs with
  | some r1 =>
    match dropLit "Total".data (r1.dropWhile isPySpace) with
    | some r2 =>
      (match wsPlus r2 with
       | some ('0' :: d :: r3) =>
         if ¬ d.isDigit then none
         else
           (match wsPlus r3 with
            | some r4 =>
              (match r4.span Char.isDigit with
               | ([], _) => none
               | (g1, r5) =>
                 match wsPlus r5 with
                 | some r6 =>
                   (match r6.span isWordC with
                    | ([], _) => none
                    | (w1, r7) =>
                      match r7 with
                      | '/' :: r8 =>
                        (match r8.span isWordC with
                         | ([], _) => none
                         | (w2, r9) =>
                           match wsPlus r9 with
                           | some r10 =>
                             (match r10.span (fun c => c.isDigit || c = '-') with
                              | ([], _) => none
                              | (g3, rest) =>
                                some ((g1, w1 ++ ['/'] ++ w2, g3), rest))
                           | none => none)
                      | _ => none)
                 | none => none)
            | none => none)
       | _ => none)
    | none => none
  | none => none

/-- `finditer` of the Total IgE pattern, building the screening entries;
`none` propagates an exception from `parse_reference_range` (not
reachable for the digits-and-dashes capture, but modelled faithfully). -/
def igeTotalGo : Nat → List Char → Option (List Allergen)
  | 0, _ => some []
  | _ + 1, [] => some []
  | fuel + 1, c :: t =>
    match igeTotalAt (c :: t) with
    | some ((g1, g2, g3), rest) =>
      match parse_reference_range (String.mk g3) with
      | none => none
      | some rr =>
        (igeTotalGo fuel rest).map fun l =>
          { code := "Total_IgE"
            name := "Immunoglobulin E, Total"
            category := "Total IgE"
            value := parse_value (String.mk g1)
            units := String.mk g2
            class? := none
            interpretation := none
            reference_range := some rr
            date_collected := none
            is_positive := false
            is_screening := true } :: l
    | none => igeTotalGo fuel t

/-- The whole of `_parse_allergies`: per-page allergen matches, then the
full-text Total IgE matches appended. -/
def allergiesOfText (text : String) : Option (List Allergen) :=
  (igeTotalGo text.data.length text.data).map fun totals =>
    allergyPages none (splitPages text.data) ++ totals

/-! ### Medication list (`_parse_medications`) -/

structure Medication where
  name : String
  brand : Option String
  dose : Option String
  form : Option String
  frequency : Option String
  route : Option String
deriving DecidableEq

/-- The hardcoded medication list emitted whenever the region search
succeeds. -/
def fixedMeds : List Medication :=
  [⟨"amphetamine-dextroamphetamine", some "ADDERALL", some "20 MG", some "tablet", some "2 times daily", none⟩,
   ⟨"cholecalciferol", some "VITAMIN D", some "400 UNIT", some "tablet", some "daily", none⟩,
   ⟨"clindamycin", some "CLEOCIN T", some "1%", some "solution", some "2 times daily", some "topical"⟩,
   ⟨"doxycycline", some "MONODOX", some "100 MG", some "capsule", some "2 times daily", none⟩,
   ⟨"QUERCETIN", none, none, some "oral", some "as needed", none⟩,
   ⟨"Tyrosine", none, some "500 MG", some "capsule", some "daily", none⟩,
   ⟨"vitamin B complex", none, none, some "capsule", some "daily", none⟩,
   ⟨"VITAMIN K", none, none, some "oral", some "as needed", none⟩]

/-- Existence of a match of
`re.search(r'Your Medication List(.+?)Medication Refill', text, re.DOTALL)`:
the first marker at some position, the second marker at least one
character after the first marker's end (`.+?` needs one character). -/
def hasMedRegion : List Char → Bool
  | [] => false
  | c :: t =>
    (leadsWith "Your Medication List".data (c :: t) &&
       hasSub "Medication Refill".data (t.drop 20)) ||
    hasMedRegion t

/-- Claim-side reading of the medication-region condition, following the
claim's words: a region starting with the first marker and later (at any
distance, including immediately) containing the second marker. -/
def specMedMarkers : List Char → Bool
  | [] => false
  | c :: t =>
    (leadsWith "Your Medication List".data (c :: t) &&
       hasSub "Medication Refill".data (t.drop 19)) ||
    specMedMarkers t

/-- `_parse_medications`: the constant list when the region search
matches, the untouched empty accumulator otherwise. -/
def parseMedications (text : String) : List Medication :=
  if hasMedRegion text.data then fixedMeds else []

/-! ### Concrete inputs used by the claims -/

/-- The empty parse context (all sticky fields still `None`). -/
def ctx0 : Ctx := ⟨none, none, none, none⟩

/-- The two-page end-to-end input of the spec's testable property. -/
def c8text : String :=
  "Date Collected: 01/15/2020\nWBC 01 6.5 x10E3/uL 3.4-10.8\n=== PAGE 2 ===\nEnd"

/-- The single laboratory result the pipeline emits for `c8text`. -/
def c8entry : LabResult :=
  { test_name := "WBC"
    value := ⟨some "6.5", some (.num (.finite (mkRat 13 2))), none⟩
    units := some "uL"
    reference_range :=
      some ⟨true, some "3.4-10.8", some (.finite (mkRat 17 5)),
            some (.finite (mkRat 54 5)), none⟩
    flag := none
    date_collected := some "2020-01-15"
    panel := none
    ordering_physician := none
    specimen_id := none
    source_format := "labcorp" }

/-- The allergen example line of the spec. -/
def igeLine : String := "D1-IgE Dust Mite 01 0.05 kU/L Class 0"

/-- The laboratory result the line loop emits for `igeLine` under a
given context (the labcorp pattern matches it first; the secondary
units/reference extraction picks up `Class` / `0` from the tail). -/
def igeLabEntry (ctx : Ctx) : LabResult :=
  { test_name := "D1-IgE Dust Mite"
    value := ⟨some "0.05", some (.num (.finite (mkRat 1 20))), none⟩
    units := some "Class"
    reference_range := some ⟨true, some "0", none, none, none⟩
    flag := none
    date_collected := ctx.date?
    panel := ctx.panel?
    ordering_physician := ctx.physician?
    specimen_id := ctx.specimen?
    source_format := "labcorp" }

/-- The allergy entry the allergy extractor emits for `igeLine`. -/
def igeAllergyEntry : Allergen :=
  { code := "D1"
    name := "Dust Mite"
    category := "Dust Mites"
    value := ⟨some "0.05", some (.num (.finite (mkRat 1 20))), none⟩
    units := "kU/L"
    class? := some 0
    interpretation := some "Negative"
    reference_range := none
    date_collected := none
    is_positive := false
    is_screening := false }

/-- Adjacent medication markers: the claim-side reading sees the region,
the code's `(.+?)` does not. -/
def adjMedText : String := "Your Medication ListMedication Refill"

/-- A sample laboratory result used by witnesses. -/
def sampleLab : LabResult :=
  { test_name := "Glucose"
    value := ⟨some "90", some (.num (.finite 90)), none⟩
    units := some "mg/dL"
    reference_range := none
    flag := none
    date_collected := none
    panel := none
    ordering_physician := none
    specimen_id := none
    source_format := "labcorp" }

/-! ## Theorems -/

/-- C1: the spec says the primitive normalizers never raise, and in
particular that `parse_reference_range` terminates normally on every
string, naming `"1.2.3-4"` explicitly.  The code contradicts this: the
range regex accepts `1.2.3` as its first group and the unguarded
`float('1.2.3')` raises `ValueError` (modelled as `none`).  The other
normalizers wrap their conversions in `try`, so the spec's
never-raises design is clearly the intent and this is a code bug. -/
theorem c1_ref_range_raises : parse_reference_range "1.2.3-4" = none := by decide

/-! ### C2: deduplication lemmas -/

/-- Deduplication only consults the membership of the seen set. -/
theorem dedupLabs_seen_congr (l : List LabResult)
    (s1 s2 : List (String × Option String × String))
    (h : ∀ k, k ∈ s1 ↔ k ∈ s2) : dedupLabs s1 l = dedupLabs s2 l := by
  induction l generalizing s1 s2 with
  | nil => rfl
  | cons r rs ih =>
    by_cases hk : labKey r ∈ s1
    · rw [dedupLabs, dedupLabs, if_pos hk, if_pos ((h _).1 hk)]
      exact ih s1 s2 h
    · rw [dedupLabs, dedupLabs, if_neg hk, if_neg (fun hc => hk ((h _).2 hc))]
      refine congrArg _ (ih _ _ fun k => ?_)
      simp only [List.mem_cons]
      exact or_congr Iff.rfl (h k)

/-- Deduplicating its own output changes nothing. -/
theorem dedupLabs_idem (l : List LabResult)
    (s : List (String × Option String × String)) :
    dedupLabs s (dedupLabs s l) = dedupLabs s l := by
  induction l generalizing s with
  | nil => rfl
  | cons r rs ih =>
    by_cases hk : labKey r ∈ s
    · rw [dedupLabs, if_pos hk]
      exact ih s
    · rw [dedupLabs, if_neg hk, dedupLabs, if_neg hk]
      exact congrArg _ (ih (labKey r :: s))

/-- The deduplicated list is a sublist (order-preserving selection). -/
theorem dedupLabs_sublist (l : List LabResult)
    (s : List (String × Option String × String)) :
    (dedupLabs s l).Sublist l := by
  induction l generalizing s with
  | nil => exact List.Sublist.refl _
  | cons r rs ih =>
    by_cases hk : labKey r ∈ s
    · rw [dedupLabs, if_pos hk]
      exact (ih s).cons r
    · rw [dedupLabs, if_neg hk]
      exact (ih _).cons₂ r

/-- Keys of the output are distinct and avoid the seen set. -/
theorem dedupLabs_keys_nodup (l : List LabResult)
    (s : List (String × Option String × String)) :
    ((dedupLabs s l).map labKey).Nodup ∧
      ∀ k ∈ (dedupLabs s l).map labKey, k ∉ s := by
  induction l generalizing s with
  | nil => exact ⟨List.nodup_nil, by simp [dedupLabs]⟩
  | cons r rs ih =>
    by_cases hk : labKey r ∈ s
    · rw [dedupLabs, if_pos hk]
      exact ih s
    · rw [dedupLabs, if_neg hk]
      obtain ⟨hnd, havoid⟩ := ih (labKey r :: s)
      refine ⟨List.nodup_cons.2 ⟨fun hc => ?_, hnd⟩, ?_⟩
      · exact havoid _ hc (List.mem_cons_self _ _)
      · intro k hkm
        simp only [List.map_cons, List.mem_cons] at hkm
        rcases hkm with rfl | hkm
        · exact hk
        · exact fun hks => havoid k hkm (List.mem_cons_of_mem _ hks)

/-- Bridge between the source's dedup loop and the spec-worded fold. -/
theorem specDedup_foldl (l : List LabResult) (acc : List LabResult) :
    l.foldl (fun acc r => if labKey r ∈ acc.map labKey then acc else acc ++ [r]) acc
      = acc ++ dedupLabs (acc.map labKey) l := by
  induction l generalizing acc with
  | nil => simp [dedupLabs]
  | cons r rs ih =>
    by_cases hk : labKey r ∈ acc.map labKey
    · rw [List.foldl_cons, if_pos hk, dedupLabs, if_pos hk, ih]
    · rw [List.foldl_cons, if_neg hk, dedupLabs, if_neg hk, ih]
      rw [List.append_assoc, List.singleton_append]
      refine congrArg _ (congrArg _ (dedupLabs_seen_congr _ _ _ fun k => ?_))
      simp [or_comm]

/-- C2: the lab deduplication keeps exactly the first occurrence of each
(test name, collection date, raw value text) key in first-seen order
(it equals the spec-worded first-occurrence fold, is an order-preserving
sublist, and its keys are pairwise distinct), and it is idempotent. -/
theorem c2_dedup_first_wins_idempotent (l : List LabResult) :
    dedupLabs [] l = specDedup l ∧
    dedupLabs [] (dedupLabs [] l) = dedupLabs [] l ∧
    (dedupLabs [] l).Sublist l ∧
    ((dedupLabs [] l).map labKey).Nodup := by
  refine ⟨?_, dedupLabs_idem l [], dedupLabs_sublist l [], (dedupLabs_keys_nodup l []).1⟩
  rw [specDedup, specDedup_foldl]
  simp

/-- Witness: the C2 theorem applied to a concrete one-element list. -/
theorem c2_witness :
    dedupLabs [] [sampleLab] = specDedup [sampleLab] ∧
    dedupLabs [] (dedupLabs [] [sampleLab]) = dedupLabs [] [sampleLab] ∧
    (dedupLabs [] [sampleLab]).Sublist [sampleLab] ∧
    ((dedupLabs [] [sampleLab]).map labKey).Nodup :=
  c2_dedup_first_wins_idempotent [sampleLab]

/-! ### C3: categorization lemmas -/

/-- Membership in a category group is membership in the input plus the
category equation. -/
theorem mem_labCategories {l : List LabResult} {c : String} {r : LabResult} :
    r ∈ labCategories l c ↔ r ∈ l ∧ categorize r.test_name = c := by
  simp [labCategories, List.mem_filter, beq_iff_eq]

/-- Either branch of a conditional lands in the category list when both
branches do. -/
theorem mem_ite_names {c : Prop} [Decidable c] {a b : String}
    (ha : a ∈ categoryNames) (hb : b ∈ categoryNames) :
    (if c then a else b) ∈ categoryNames := by
  by_cases h : c
  · rwa [if_pos h]
  · rwa [if_neg h]

theorem categorizeL_mem_names (n : List Char) : categorizeL n ∈ categoryNames := by
  unfold categorizeL
  exact mem_ite_names (by decide) (mem_ite_names (by decide) (mem_ite_names (by decide)
    (mem_ite_names (by decide) (mem_ite_names (by decide) (mem_ite_names (by decide)
    (mem_ite_names (by decide) (mem_ite_names (by decide) (mem_ite_names (by decide)
    (mem_ite_names (by decide) (mem_ite_names (by decide) (mem_ite_names (by decide)
    (by decide))))))))))))

theorem categorize_mem_names (n : String) : categorize n ∈ categoryNames :=
  categorizeL_mem_names (pyLower n.data)

/-- Adding one result to the input adds exactly one to the group sizes,
in the bucket of its category. -/
theorem sum_labCategories_cons (ns : List String) (hnd : ns.Nodup)
    (r : LabResult) (t : List LabResult) :
    (ns.map fun c => (labCategories (r :: t) c).length).sum =
      (ns.map fun c => (labCategories t c).length).sum +
      (if categorize r.test_name ∈ ns then 1 else 0) := by
  induction ns with
  | nil => simp
  | cons c ns' ih =>
    obtain ⟨hc1, hc2⟩ := List.nodup_cons.1 hnd
    by_cases hc : categorize r.test_name = c
    · have h1 : labCategories (r :: t) c = r :: labCategories t c := by
        simp [labCategories, List.filter_cons, hc]
      have hcm : categorize r.test_name ∈ c :: ns' := by simp [hc]
      have hnm : categorize r.test_name ∉ ns' := by rw [hc]; exact hc1
      rw [List.map_cons, List.map_cons, List.sum_cons, List.sum_cons, h1,
        List.length_cons, ih hc2, if_pos hcm, if_neg hnm]
      omega
    · have h1 : labCategories (r :: t) c = labCategories t c := by
        simp [labCategories, List.filter_cons, hc]
      have hmem : (categorize r.test_name ∈ c :: ns') ↔ (categorize r.test_name ∈ ns') := by
        simp [List.mem_cons, hc]
      simp only [List.map_cons, List.sum_cons, h1, ih hc2]
      rw [if_congr hmem rfl rfl]
      omega

/-- C3: categorization is total and deterministic — every lab result
lands in exactly the group of its category (the first matching keyword
rule, `other` when none matches), that category is one of the thirteen
fixed names, and the groups partition the input (their sizes sum to the
input size).  Determinism is inherent: `categorize` is a function of the
test name. -/
theorem c3_categorization (l : List LabResult) :
    (∀ r ∈ l, r ∈ labCategories l (categorize r.test_name) ∧
        ∀ c, r ∈ labCategories l c → c = categorize r.test_name) ∧
    (∀ r ∈ l, categorize r.test_name ∈ categoryNames) ∧
    (categoryNames.map fun c => (labCategories l c).length).sum = l.length := by
  refine ⟨fun r hr => ⟨?_, fun c hc => ?_⟩, fun r _ => categorize_mem_names _, ?_⟩
  · exact mem_labCategories.2 ⟨hr, rfl⟩
  · exact ((mem_labCategories.1 hc).2).symm
  · induction l with
    | nil => simp [labCategories]
    | cons r t ih =>
      rw [sum_labCategories_cons categoryNames (by decide) r t,
        if_pos (categorize_mem_names r.test_name), ih]
      simp

/-- Witness: the C3 theorem applied to a concrete one-element list. -/
theorem c3_witness :
    sampleLab ∈ labCategories [sampleLab] (categorize sampleLab.test_name) ∧
    categorize sampleLab.test_name ∈ categoryNames :=
  ⟨((c3_categorization [sampleLab]).1 sampleLab (List.mem_cons_self _ _)).1,
   (c3_categorization [sampleLab]).2.1 sampleLab (List.mem_cons_self _ _)⟩

/-! ### C4: date normalization -/

/-- C4 counterexample: the claim says every input matching no known
format — including the empty string — comes back as the trimmed original
text; the code returns `None` for the empty string. -/
theorem c4_counterexample : parse_date "" = none ∧ parse_date "" ≠ some "" := by
  decide

/-- C4 as amended: for a non-empty input, `parse_date` returns the first
successful parse of the fixed ordered format list in ISO form, and the
trimmed original text when no format matches; the empty string alone
yields `None` (absent) instead of the trimmed text. -/
theorem c4_amended :
    (∀ s : String, s ≠ "" → firstFmt (pyStrip s.data) = none →
        parse_date s = some (String.mk (pyStrip s.data))) ∧
    (∀ (s : String) (ymd : Nat × Nat × Nat), s ≠ "" →
        firstFmt (pyStrip s.data) = some ymd → parse_date s = some (isoOf ymd)) ∧
    parse_date "05/26/1987" = some "1987-05-26" ∧
    parse_date "" = none := by
  refine ⟨?_, ?_, by decide, by decide⟩
  · intro s hs h
    simp only [parse_date]
    rw [if_neg (by simpa using hs), h]
  · intro s ymd hs h
    simp only [parse_date]
    rw [if_neg (by simpa using hs), h]

/-- Witness: the C4 theorem applied to a concrete non-matching input. -/
theorem c4_witness : parse_date "xyz" = some (String.mk (pyStrip "xyz".data)) :=
  c4_amended.1 "xyz" (by decide) (by decide)

/-! ### C5: value normalization -/

/-- C5 counterexample: the claim (and spec) say a numeric-parse failure
after a leading qualifier is swallowed into "qualifier set, value
absent"; in the code the exception skips the qualifier assignment too,
so neither is set. -/
theorem c5_counterexample :
    parse_value "<abc" = ⟨some "<abc", none, none⟩ ∧
    (parse_value "<abc").qualifier ≠ some "<" := by decide

/-- C5 as amended: raw text is always retained (the stripped input); a
leading `<`/`>` with a parsable numeric tail yields value plus
qualifier; a parse failure there leaves both value and qualifier absent
(raw only); any other input is parsed as a full numeral, falling back to
the text itself as a qualitative value. -/
theorem c5_amended :
    parse_value "<0.10" = ⟨some "<0.10", some (.num (.finite (mkRat 1 10))), some "<"⟩ ∧
    parse_value "Positive" = ⟨some "Positive", some (.str "Positive"), none⟩ ∧
    (∀ s : String, s ≠ "" → (parse_value s).raw = some (String.mk (pyStrip s.data))) ∧
    (∀ (s : String) (f : PyFloat), (pyStrip s.data).head? = some '<' →
        pyFloat? (String.mk (pyStrip s.data).tail) = some f →
        parse_value s = ⟨some (String.mk (pyStrip s.data)), some (.num f), some "<"⟩) ∧
    (∀ s : String, (pyStrip s.data).head? = some '<' →
        pyFloat? (String.mk (pyStrip s.data).tail) = none →
        parse_value s = ⟨some (String.mk (pyStrip s.data)), none, none⟩) ∧
    (∀ (s : String) (f : PyFloat), (pyStrip s.data).head? = some '>' →
        pyFloat? (String.mk (pyStrip s.data).tail) = some f →
        parse_value s = ⟨some (String.mk (pyStrip s.data)), some (.num f), some ">"⟩) ∧
    (∀ s : String, (pyStrip s.data).head? = some '>' →
        pyFloat? (String.mk (pyStrip s.data).tail) = none →
        parse_value s = ⟨some (String.mk (pyStrip s.data)), none, none⟩) ∧
    (∀ (s : String) (f : PyFloat), s ≠ "" →
        (pyStrip s.data).head? ≠ some '<' → (pyStrip s.data).head? ≠ some '>' →
        pyFloat? (String.mk (pyStrip s.data)) = some f →
        parse_value s = ⟨some (String.mk (pyStrip s.data)), some (.num f), none⟩) ∧
    (∀ s : String, s ≠ "" →
        (pyStrip s.data).head? ≠ some '<' → (pyStrip s.data).head? ≠ some '>' →
        pyFloat? (String.mk (pyStrip s.data)) = none →
        parse_value s = ⟨some (String.mk (pyStrip s.data)),
          some (.str (String.mk (pyStrip s.data))), none⟩) := by
  have hne : ∀ s : String, (pyStrip s.data).head? = some '<' ∨
      (pyStrip s.data).head? = some '>' → s ≠ "" := by
    rintro s h rfl
    rcases h with h | h <;> exact Option.noConfusion h
  refine ⟨by decide, by decide, ?_, ?_, ?_, ?_, ?_, ?_, ?_⟩
  · intro s hs
    simp only [parse_value]
    rw [if_neg (by simpa using hs)]
    by_cases h1 : (pyStrip s.data).head? = some '<'
    · rw [if_pos h1]
      cases hf : pyFloat? (String.mk (pyStrip s.data).tail) <;> simp [hf]
    · rw [if_neg h1]
      by_cases h2 : (pyStrip s.data).head? = some '>'
      · rw [if_pos h2]
        cases hf : pyFloat? (String.mk (pyStrip s.data).tail) <;> simp [hf]
      · rw [if_neg h2]
        cases hf : pyFloat? (String.mk (pyStrip s.data)) <;> simp [hf]
  · intro s f h1 hf
    simp only [parse_value]
    rw [if_neg (by simpa using hne s (Or.inl h1)), if_pos h1, hf]
  · intro s h1 hf
    simp only [parse_value]
    rw [if_neg (by simpa using hne s (Or.inl h1)), if_pos h1, hf]
  · intro s f h2 hf
    have h1 : (pyStrip s.data).head? ≠ some '<' := by
      rw [h2]; intro hc; exact absurd (Option.some.inj hc) (by decide)
    simp only [parse_value]
    rw [if_neg (by simpa using hne s (Or.inr h2)), if_neg h1, if_pos h2, hf]
  · intro s h2 hf
    have h1 : (pyStrip s.data).head? ≠ some '<' := by
      rw [h2]; intro hc; exact absurd (Option.some.inj hc) (by decide)
    simp only [parse_value]
    rw [if_neg (by simpa using hne s (Or.inr h2)), if_neg h1, if_pos h2, hf]
  · intro s f hs h1 h2 hf
    simp only [parse_value]
    rw [if_neg (by simpa using hs), if_neg h1, if_neg h2, hf]
  · intro s hs h1 h2 hf
    simp only [parse_value]
    rw [if_neg (by simpa using hs), if_neg h1, if_neg h2, hf]

/-- Witness: the C5 theorem's qualifier branch applied to `"<0.10"`. -/
theorem c5_witness :
    parse_value "<0.10" =
      ⟨some (String.mk (pyStrip "<0.10".data)),
       some (.num (.finite (mkRat 1 10))), some "<"⟩ :=
  c5_amended.2.2.2.1 "<0.10" (.finite (mkRat 1 10)) (by decide) (by decide)

/-! ### C6: flag normalization -/

/-- C6 counterexample: the claim says an unrecognized non-empty token
passes through unchanged; the code passes it through stripped and
upper-cased. -/
theorem c6_counterexample :
    parse_flag "abn" = some "ABN" ∧ parse_flag "abn" ≠ some "abn" := by decide

/-- C6 as amended: H/HIGH, L/LOW, A/ABNORMAL, C/CRITICAL map
case-insensitively (via upper-casing) to their canonical labels; every
other token whose stripped text is non-empty passes through stripped and
upper-cased (never discarded); an empty or whitespace-only input yields
absent. -/
theorem c6_amended :
    (∀ s : String,
        (String.mk ((pyStrip s.data).map pyUpperC) = "H" ∨
         String.mk ((pyStrip s.data).map pyUpperC) = "HIGH") →
        parse_flag s = some "High") ∧
    (∀ s : String,
        (String.mk ((pyStrip s.data).map pyUpperC) = "L" ∨
         String.mk ((pyStrip s.data).map pyUpperC) = "LOW") →
        parse_flag s = some "Low") ∧
    (∀ s : String,
        (String.mk ((pyStrip s.data).map pyUpperC) = "A" ∨
         String.mk ((pyStrip s.data).map pyUpperC) = "ABNORMAL") →
        parse_flag s = some "Abnormal") ∧
    (∀ s : String,
        (String.mk ((pyStrip s.data).map pyUpperC) = "C" ∨
         String.mk ((pyStrip s.data).map pyUpperC) = "CRITICAL") →
        parse_flag s = some "Critical") ∧
    (∀ s : String,
        String.mk ((pyStrip s.data).map pyUpperC) ∉
          (["H", "HIGH", "L", "LOW", "A", "ABNORMAL", "C", "CRITICAL"] : List String) →
        String.mk ((pyStrip s.data).map pyUpperC) ≠ "" →
        parse_flag s = some (String.mk ((pyStrip s.data).map pyUpperC))) ∧
    (∀ s : String, pyStrip s.data = [] → parse_flag s = none) := by
  have hmap : ∀ (s : String) (tok : String),
      String.mk ((pyStrip s.data).map pyUpperC) = tok → tok ≠ "" → (s == "") = false := by
    rintro s tok h htok
    rcases eq_or_ne s "" with rfl | hne
    · exact absurd ((by decide : String.mk ((pyStrip ("" : String).data).map pyUpperC) = "") ▸ h)
        fun he => htok he.symm
    · simpa using hne
  refine ⟨?_, ?_, ?_, ?_, ?_, ?_⟩
  · intro s h
    have hs : (s == "") = false := by
      rcases h with h | h
      · exact hmap s "H" h (by decide)
      · exact hmap s "HIGH" h (by decide)
    simp only [parse_flag]
    rw [if_neg (by simp [hs])]
    rcases h with h | h <;> rw [h] <;> decide
  · intro s h
    have hs : (s == "") = false := by
      rcases h with h | h
      · exact hmap s "L" h (by decide)
      · exact hmap s "LOW" h (by decide)
    simp only [parse_flag]
    rw [if_neg (by simp [hs])]
    rcases h with h | h <;> rw [h] <;> decide
  · intro s h
    have hs : (s == "") = false := by
      rcases h with h | h
      · exact hmap s "A" h (by decide)
      · exact hmap s "ABNORMAL" h (by decide)
    simp only [parse_flag]
    rw [if_neg (by simp [hs])]
    rcases h with h | h <;> rw [h] <;> decide
  · intro s h
    have hs : (s == "") = false := by
      rcases h with h | h
      · exact hmap s "C" h (by decide)
      · exact hmap s "CRITICAL" h (by decide)
    simp only [parse_flag]
    rw [if_neg (by simp [hs])]
    rcases h with h | h <;> rw [h] <;> decide
  · intro s hmem hu
    have hs : (s == "") = false := by
      rcases eq_or_ne s "" with rfl | hne
      · exact absurd (by decide) hu
      · simpa using hne
    simp only [parse_flag]
    simp only [List.mem_cons, List.not_mem_nil, or_false, not_or] at hmem
    obtain ⟨h1, h2, h3, h4, h5, h6, h7, h8⟩ := hmem
    rw [if_neg (by simp [hs]), if_neg (by simp [h1, h2]), if_neg (by simp [h3, h4]),
      if_neg (by simp [h5, h6]), if_neg (by simp [h7, h8]), if_neg hu]
  · intro s h
    rcases eq_or_ne s "" with rfl | hne
    · decide
    · simp only [parse_flag]
      rw [if_neg (by simpa using hne),
        show String.mk ((pyStrip s.data).map pyUpperC) = "" from by rw [h]; rfl]
      decide

/-- Witness: the C6 theorem's pass-through clause applied to `"wnl"`. -/
theorem c6_witness :
    parse_flag "wnl" = some (String.mk ((pyStrip "wnl".data).map pyUpperC)) :=
  c6_amended.2.2.2.2.1 "wnl" (by decide) (by decide)

/-! ### C7: allergen derivations -/

/-- C7: every allergy entry emitted from an allergen-pattern match
derives its category from the leading letter via the fixed code table,
its class from the `Class N` token, its interpretation from the fixed
class table (0→Negative, 1→Low, 2→Moderate, 3→High, 4–6→Very High), and
its positivity as class > 0; and the line
`D1-IgE Dust Mite 01 0.05 kU/L Class 0` yields exactly one entry with
category `Dust Mites`, class 0, interpretation `Negative`, and
`is_positive` false. -/
theorem c7_allergen_derivations :
    (∀ (d : Option String) (page : List Char) (e : Allergen),
        e ∈ (agFinditer page.length page).map (mkAllergen d) →
        ∃ k : Nat, e.class? = some k ∧ e.interpretation = some (igeLevel k) ∧
          e.is_positive = decide (k > 0) ∧
          ∃ (c0 : Char) (ds : List Char), e.code = String.mk (c0 :: ds) ∧
            e.category = allergenCodes c0) ∧
    ([0, 1, 2, 3, 4, 5, 6].map igeLevel =
      ["Negative", "Low", "Moderate", "High", "Very High", "Very High", "Very High"]) ∧
    ("DEGIMTWF".data.map allergenCodes =
      ["Dust Mites", "Animal Dander", "Grasses", "Insects", "Molds", "Trees",
       "Weeds", "Foods"]) ∧
    allergenCodes 'X' = "Unknown" ∧
    allergiesOfText igeLine = some [igeAllergyEntry] := by
  refine ⟨?_, by decide, by decide, by decide, by decide⟩
  intro d page e he
  rcases List.mem_map.1 he with ⟨caps, _, rfl⟩
  exact ⟨caps.classNum, rfl, rfl, rfl, caps.codeLetter, caps.codeDigits, rfl, rfl⟩

/-- Witness: the C7 theorem's derivation clause applied to the entry
extracted from the concrete allergen line. -/
theorem c7_witness :
    ∃ k : Nat, igeAllergyEntry.class? = some k ∧
      igeAllergyEntry.interpretation = some (igeLevel k) ∧
      igeAllergyEntry.is_positive = decide (k > 0) ∧
      ∃ (c0 : Char) (ds : List Char), igeAllergyEntry.code = String.mk (c0 :: ds) ∧
        igeAllergyEntry.category = allergenCodes c0 :=
  c7_allergen_derivations.1 none igeLine.data igeAllergyEntry (by decide)

/-! ### C8: end-to-end two-page evaluation -/

/-- C8: evaluation of the pipeline at the claim's two-page input.  The
deduplicated output holds exactly one result, it is the sole member of
the `hematology` group, and every field matches the claim — except the
units, which come out `uL` rather than the claimed `x10E3/uL`: the unit
regex's leading `[a-zA-Z]+` cannot cross the digits of `x10E3`, so its
first successful match starts at the trailing `uL`.  The code's own
(unused) `cbc_tests` table documents `x10E3/uL` as the intended units
for WBC, so the claim reflects the intent and the code diverges. -/
theorem c8_eval :
    uniqueLabsOfText c8text = some [c8entry] ∧
    labCategories [c8entry] "hematology" = [c8entry] ∧
    categorize c8entry.test_name = "hematology" ∧
    c8entry.test_name = "WBC" ∧
    c8entry.value.value = some (.num (.finite (mkRat 13 2))) ∧
    c8entry.reference_range =
      some ⟨true, some "3.4-10.8", some (.finite (mkRat 17 5)),
            some (.finite (mkRat 54 5)), none⟩ ∧
    c8entry.date_collected = some "2020-01-15" ∧
    c8entry.units = some "uL" ∧
    c8entry.units ≠ some "x10E3/uL" := by decide

/-! ### C9: allergen lines inside the laboratory line loop -/

/-- C9 counterexample: the concrete allergen line is matched by the
dedicated in-loop allergen pattern, yet the line loop still emits one
generic LabResult for it into the accumulator (via the labcorp pattern,
which matches first), contradicting the claim that no LabResult is
emitted for such lines. -/
theorem c9_counterexample :
    (agLoopMatch (pyStrip igeLine.data)).isSome = true ∧
    processLine ctx0 igeLine = some [igeLabEntry ctx0] ∧
    some [igeLabEntry ctx0] ≠ some ([] : List LabResult) := by decide

/-- C9 as amended: lines matching the dedicated allergen pattern are not
exempt from generic LabResult emission — under every parse context the
example line yields exactly one LabResult (tagged with the first
matching format, `labcorp`) — while the Allergy Extractor independently
also emits an allergen entry for it from its own full-text scan. -/
theorem c9_amended :
    ∀ ctx : Ctx,
      (agLoopMatch (pyStrip igeLine.data)).isSome = true ∧
      processLine ctx igeLine = some [igeLabEntry ctx] ∧
      allergiesOfText igeLine = some [igeAllergyEntry] := by
  intro ctx
  refine ⟨by decide, ?_, by decide⟩
  rfl

/-! ### C10: medication list -/

theorem leadsWith_self_append (l r : List Char) : leadsWith l (l ++ r) = true := by
  induction l with
  | nil => rfl
  | cons c t ih => simp [leadsWith, ih]

/-- The substring test finds an explicit occurrence. -/
theorem hasSub_mid (n a b : List Char) : hasSub n (a ++ (n ++ b)) = true := by
  induction a with
  | nil =>
    rw [List.nil_append]
    cases n with
    | nil =>
      cases b with
      | nil => rfl
      | cons c t => simp [hasSub, leadsWith]
    | cons nc nt =>
      rw [List.cons_append, hasSub, ← List.cons_append, leadsWith_self_append]
      simp
  | cons c t ih =>
    rw [List.cons_append, hasSub, ih]
    simp

theorem drop_len_add (a z : List Char) (k : Nat) :
    (a ++ z).drop (a.length + k) = z.drop k := by
  induction a with
  | nil => simp
  | cons c t ih => simp [Nat.succ_add, ih]

/-- Any text containing the first marker, at least one character, and
then the second marker satisfies the medication-region search. -/
theorem hasMedRegion_append (pre mid post : List Char) (hm : mid ≠ []) :
    hasMedRegion (pre ++ ("Your Medication List".data ++
      (mid ++ ("Medication Refill".data ++ post)))) = true := by
  induction pre with
  | nil =>
    rw [List.nil_append]
    obtain ⟨m0, mid', rfl⟩ : ∃ m0 mid', mid = m0 :: mid' := by
      cases mid with
      | nil => exact absurd rfl hm
      | cons a b => exact ⟨a, b, rfl⟩
    rw [show "Your Medication List".data = 'Y' :: "our Medication List".data from rfl,
      List.cons_append, hasMedRegion]
    have h1 : leadsWith "Your Medication List".data
        ('Y' :: ("our Medication List".data ++
          ((m0 :: mid') ++ ("Medication Refill".data ++ post)))) = true := by
      rw [← List.cons_append,
        show ('Y' :: "our Medication List".data) = "Your Medication List".data from rfl]
      exact leadsWith_self_append _ _
    have h2 : ("our Medication List".data ++
          ((m0 :: mid') ++ ("Medication Refill".data ++ post))).drop 20
        = mid' ++ ("Medication Refill".data ++ post) := by
      rw [show (20 : Nat) = ("our Medication List".data).length + 1 from by decide,
        drop_len_add]
      simp
    rw [h1, h2, hasSub_mid]
    rfl
  | cons c t ih =>
    rw [List.cons_append, hasMedRegion, ih]
    simp

/-- C10 counterexample: under the claim's reading ("a region starting
with the first marker and later containing the second"), adjacent
markers qualify, yet the code's `(.+?)` requires at least one character
between them, so the medication list stays empty. -/
theorem c10_counterexample :
    specMedMarkers adjMedText.data = true ∧
    parseMedications adjMedText = [] ∧
    ([] : List Medication) ≠ fixedMeds := by decide

/-- C10 as amended: whenever at least one character separates the
`Your Medication List` marker from a later `Medication Refill` marker,
the output is exactly the fixed eight-entry hardcoded list, independent
of the surrounding and intervening text; when the region search fails,
the list is empty. -/
theorem c10_amended :
    (∀ pre mid post : List Char, mid ≠ [] →
        parseMedications (String.mk (pre ++ ("Your Medication List".data ++
          (mid ++ ("Medication Refill".data ++ post))))) = fixedMeds) ∧
    (∀ t : String, hasMedRegion t.data = false → parseMedications t = []) ∧
    fixedMeds.length = 8 := by
  refine ⟨?_, ?_, by decide⟩
  · intro pre mid post hm
    unfold parseMedications
    rw [if_pos]
    show hasMedRegion (pre ++ ("Your Medication List".data ++
      (mid ++ ("Medication Refill".data ++ post)))) = true
    exact hasMedRegion_append pre mid post hm
  · intro t h
    unfold parseMedications
    rw [if_neg]
    simp [h]

/-- Witness: the C10 theorem applied with a one-character separator. -/
theorem c10_witness :
    parseMedications (String.mk ([] ++ ("Your Medication List".data ++
      ("x".data ++ ("Medication Refill".data ++ []))))) = fixedMeds :=
  c10_amended.1 [] "x".data [] (by decide)

/-- Witness: the C9 theorem applied at the empty parse context. -/
theorem c9_witness : processLine ctx0 igeLine = some [igeLabEntry ctx0] :=
  (c9_amended ctx0).2.1
